import Mathlib

/-!
Verification of the delta-detection and download core of the AWS cost
estimator tool: a shallow embedding of src/delta_downloader.py and
src/aws_price_downloader.py, with theorems settling the stated claims
about hashing, delta computation, caching, history capping, atomicity
of writes, retry behaviour and failure aggregation.
-/

set_option maxHeartbeats 1000000

/--
JSON values as produced by Python's json.load: objects keep their textual
entry order as an association list (a parsed Python dict never has
duplicate keys). Numbers are modelled as integers: none of the claims
under study depends on the numeric representation of a payload field.
-/
inductive Json where
  | null : Json
  | bool (b : Bool) : Json
  | num (n : Int) : Json
  | str (s : String) : Json
  | arr (l : List Json) : Json
  | obj (l : List (String × Json)) : Json

mutual
/--
Equality of parsed JSON values: Python's == as used by compute_delta on
product records. Structural equality on the parsed representation; note
Python compares dicts key-set-wise rather than in entry order, but every
payload here is read from JSON text by one fixed parse, and no claim in
scope distinguishes the two notions.
-/
def jeq : Json → Json → Bool
  | .null, .null => true
  | .bool a, .bool b => a == b
  | .num a, .num b => a == b
  | .str a, .str b => a == b
  | .arr a, .arr b => jeqL a b
  | .obj a, .obj b => jeqE a b
  | _, _ => false

def jeqL : List Json → List Json → Bool
  | [], [] => true
  | a :: l, b :: m => jeq a b && jeqL l m
  | _, _ => false

def jeqE : List (String × Json) → List (String × Json) → Bool
  | [], [] => true
  | (k, v) :: l, (k2, w) :: m => k == k2 && jeq v w && jeqE l m
  | _, _ => false
end

mutual
theorem jeq_refl : ∀ j : Json, jeq j j = true
  | .null => rfl
  | .bool b => by simp [jeq]
  | .num n => by simp [jeq]
  | .str s => by simp [jeq]
  | .arr l => by simp [jeq, jeqL_refl l]
  | .obj l => by simp [jeq, jeqE_refl l]

theorem jeqL_refl : ∀ l : List Json, jeqL l l = true
  | [] => rfl
  | a :: l => by simp [jeqL, jeq_refl a, jeqL_refl l]

theorem jeqE_refl : ∀ l : List (String × Json), jeqE l l = true
  | [] => rfl
  | (k, v) :: l => by simp [jeqE, jeq_refl v, jeqE_refl l]
end

/-- Python truthiness of a parsed JSON value (bool(x) for the values json.load
can return): empty containers, empty strings, zero, False and None are falsy. -/
def truthy : Json → Bool
  | .null => false
  | .bool b => b
  | .num n => n != 0
  | .str s => !s.isEmpty
  | .arr l => !l.isEmpty
  | .obj l => !l.isEmpty

/-- Python dict lookup d.get(k) on a parsed JSON object, as an association-list
lookup (first match; a parsed dict has no duplicate keys). -/
def lookupJ : List (String × Json) → String → Option Json
  | [], _ => none
  | (k, v) :: l, key => if k = key then some v else lookupJ l key

/-- Escaping of one character inside a JSON string literal, as json.dumps does
for the common cases (quote, backslash and the usual control characters; the
rarer \\u escapes are elided — only determinism of the serialization matters
for the claims in scope). -/
def escChar (c : Char) : String :=
  if c = '"' then "\\\""
  else if c = '\\' then "\\\\"
  else if c = '\n' then "\\n"
  else if c = '\t' then "\\t"
  else if c = '\r' then "\\r"
  else String.singleton c

/-- Serialization of a string as a JSON string literal. -/
def dumpStringLit (s : String) : String :=
  "\"" ++ String.join (s.toList.map escChar) ++ "\""

/-- Order on rendered object entries used by sort_keys=True: compare by key. -/
def keyLE (a b : String × String) : Prop := a.1 ≤ b.1

instance : DecidableRel keyLE := fun a b => inferInstanceAs (Decidable (a.1 ≤ b.1))

instance : IsTotal (String × String) keyLE := ⟨fun a b => le_total a.1 b.1⟩

instance : IsTrans (String × String) keyLE := ⟨fun _ _ _ h h2 => le_trans h h2⟩

/-- Sorting the (key, rendered value) pairs of an object by key: the model of
the key sort performed by json.dumps(..., sort_keys=True). A stable insertion
sort; on the duplicate-free key lists of parsed dicts its output is the unique
key-sorted rearrangement, so it agrees with Python's sort. -/
def sortByKey (l : List (String × String)) : List (String × String) :=
  List.insertionSort keyLE l

/-- Rendering of one sorted object entry: "key": value with the default
separator of json.dumps. -/
def renderEntry (p : String × String) : String :=
  dumpStringLit p.1 ++ ": " ++ p.2

mutual
/--
json.dumps(data, sort_keys=True) as called by DeltaDownloader.calculate_hash
(src/delta_downloader.py line 28): objects are serialized with their keys in
sorted order at every nesting depth, arrays in element order, with the default
", " and ": " separators. Each entry value is serialized first and the
rendered (key, value) pairs are then sorted by key — the same output as
sorting the entries and then serializing, since each value's serialization is
independent of its position.
-/
def dumps : Json → String
  | .null => "null"
  | .bool true => "true"
  | .bool false => "false"
  | .num n => toString n
  | .str s => dumpStringLit s
  | .arr l => "[" ++ ", ".intercalate (dumpsL l) ++ "]"
  | .obj l => "\x7b" ++ ", ".intercalate ((sortByKey (dumpsE l)).map renderEntry) ++ "\x7d"

def dumpsL : List Json → List String
  | [] => []
  | a :: l => dumps a :: dumpsL l

def dumpsE : List (String × Json) → List (String × String)
  | [] => []
  | (k, v) :: l => (k, dumps v) :: dumpsE l
end

/--
DeltaDownloader.calculate_hash (src/delta_downloader.py lines 26-28):
hashlib.md5(json.dumps(data, sort_keys=True).encode()).hexdigest(). The md5
digest itself is library code, abstracted as an arbitrary deterministic
function of the canonical serialization; every theorem below holds for any
such digest function.
-/
def calculate_hash (md5 : String → String) (data : Json) : String :=
  md5 (dumps data)

/-- Duplicate-freedom of a key list, decidably (the keys of any parsed Python
dict are distinct). -/
def keysNodup : List String → Bool
  | [] => true
  | k :: l => !(l.contains k) && keysNodup l

mutual
/-- Well-formedness of a parsed JSON value: every object that occurs in it has
duplicate-free keys, which is true of everything json.load returns. -/
def wf : Json → Bool
  | .null => true
  | .bool _ => true
  | .num _ => true
  | .str _ => true
  | .arr l => wfL l
  | .obj l => keysNodup (l.map Prod.fst) && wfE l

def wfL : List Json → Bool
  | [] => true
  | a :: l => wf a && wfL l

def wfE : List (String × Json) → Bool
  | [] => true
  | (_, v) :: l => wf v && wfE l
end

theorem dumpsE_eq_map : ∀ l : List (String × Json),
    dumpsE l = l.map (fun kv => (kv.1, dumps kv.2))
  | [] => rfl
  | (k, v) :: l => by simp [dumpsE, dumpsE_eq_map l]

theorem dumpsE_map_fst : ∀ l : List (String × Json),
    (dumpsE l).map Prod.fst = l.map Prod.fst
  | [] => rfl
  | (k, v) :: l => by simp [dumpsE, dumpsE_map_fst l]

theorem keysNodup_iff : ∀ l : List String, keysNodup l = true ↔ l.Nodup
  | [] => by simp [keysNodup]
  | k :: l => by
      simp [keysNodup, List.nodup_cons, keysNodup_iff l]

theorem wfE_iff : ∀ l : List (String × Json),
    wfE l = true ↔ ∀ kv ∈ l, wf kv.2 = true
  | [] => by simp [wfE]
  | (k, v) :: l => by
      simp only [wfE, Bool.and_eq_true, wfE_iff l, List.mem_cons]
      constructor
      · rintro ⟨hv, hl⟩ kv hkv
        rcases hkv with h | h
        · simpa [h] using hv
        · exact hl kv h
      · intro h
        exact ⟨h (k, v) (Or.inl rfl), fun kv hkv => h kv (Or.inr hkv)⟩

theorem wfE_of_perm {l₁ l₂ : List (String × Json)} (hp : l₁.Perm l₂)
    (hw : wfE l₂ = true) : wfE l₁ = true := by
  rw [wfE_iff] at hw ⊢
  exact fun kv hkv => hw kv (hp.mem_iff.mp hkv)

/-- Strict key order on rendered entries, used to show the sorted entry list
of a duplicate-free-key object is unique. -/
def keyLT (a b : String × String) : Prop := a.1 < b.1

instance : IsAntisymm (String × String) keyLT :=
  ⟨fun _ _ h h2 => absurd (lt_trans h h2) (lt_irrefl _)⟩

theorem sorted_keyLT {l : List (String × String)} (hs : List.Sorted keyLE l)
    (hn : (l.map Prod.fst).Nodup) : List.Sorted keyLT l := by
  have hne : l.Pairwise (fun a b : String × String => a.1 ≠ b.1) :=
    List.pairwise_map.mp hn
  exact (hs.and hne).imp (fun h => lt_of_le_of_ne h.1 h.2)

/-- Two rearrangements of the same duplicate-free-key entry list sort to the
same list: key-sorted order is unique when keys are distinct. -/
theorem sortByKey_eq_of_perm {l₁ l₂ : List (String × String)} (hp : l₁.Perm l₂)
    (hn : (l₂.map Prod.fst).Nodup) : sortByKey l₁ = sortByKey l₂ := by
  have hp' : (sortByKey l₁).Perm (sortByKey l₂) :=
    (List.perm_insertionSort keyLE l₁).trans
      (hp.trans (List.perm_insertionSort keyLE l₂).symm)
  have hn₂ : ((sortByKey l₂).map Prod.fst).Nodup :=
    (((List.perm_insertionSort keyLE l₂).map Prod.fst).nodup_iff).mpr hn
  have hn₁ : ((sortByKey l₁).map Prod.fst).Nodup :=
    ((hp'.map Prod.fst).nodup_iff).mpr hn₂
  have hs₁ : List.Sorted keyLT (sortByKey l₁) :=
    sorted_keyLT (List.sorted_insertionSort keyLE l₁) hn₁
  have hs₂ : List.Sorted keyLT (sortByKey l₂) :=
    sorted_keyLT (List.sorted_insertionSort keyLE l₂) hn₂
  exact @List.eq_of_perm_of_sorted (String × String) keyLT _ _ _ hp' hs₁ hs₂

mutual
/-- Key permutation of JSON values at any nesting depth: both sides are equal
apart from the insertion order of object entries, recursively. -/
inductive KeyPerm : Json → Json → Prop where
  | null : KeyPerm .null .null
  | bool (b : Bool) : KeyPerm (.bool b) (.bool b)
  | num (n : Int) : KeyPerm (.num n) (.num n)
  | str (s : String) : KeyPerm (.str s) (.str s)
  | arr {l₁ l₂ : List Json} : KeyPermL l₁ l₂ → KeyPerm (.arr l₁) (.arr l₂)
  | obj {l₁ l₃ l₂ : List (String × Json)} :
      KeyPermE l₁ l₃ → l₃.Perm l₂ → KeyPerm (.obj l₁) (.obj l₂)

/-- Elementwise key permutation of JSON arrays. -/
inductive KeyPermL : List Json → List Json → Prop where
  | nil : KeyPermL [] []
  | cons {a b : Json} {l₁ l₂ : List Json} :
      KeyPerm a b → KeyPermL l₁ l₂ → KeyPermL (a :: l₁) (b :: l₂)

/-- Entrywise key permutation of object entry lists: same keys in the same
order, values related recursively. -/
inductive KeyPermE : List (String × Json) → List (String × Json) → Prop where
  | nil : KeyPermE [] []
  | cons {k : String} {v w : Json} {l₁ l₂ : List (String × Json)} :
      KeyPerm v w → KeyPermE l₁ l₂ → KeyPermE ((k, v) :: l₁) ((k, w) :: l₂)
end

mutual
theorem keyPerm_dumps : ∀ {p q : Json}, KeyPerm p q → wf q = true →
    dumps p = dumps q
  | _, _, .null, _ => rfl
  | _, _, .bool _, _ => rfl
  | _, _, .num _, _ => rfl
  | _, _, .str _, _ => rfl
  | _, _, .arr h, hw => by
      have hl := keyPermL_dumps h (by simpa [wf] using hw)
      simp [dumps, hl]
  | _, _, @KeyPerm.obj l₁ l₃ l₂ he hperm, hw => by
      have hw' : keysNodup (l₂.map Prod.fst) = true ∧ wfE l₂ = true := by
        simpa [wf] using hw
      have hE := keyPermE_dumps he (wfE_of_perm hperm hw'.2)
      have hmap : (dumpsE l₃).Perm (dumpsE l₂) := by
        rw [dumpsE_eq_map l₃, dumpsE_eq_map l₂]
        exact hperm.map _
      have hn : ((dumpsE l₂).map Prod.fst).Nodup := by
        rw [dumpsE_map_fst]
        exact (keysNodup_iff _).mp hw'.1
      have hsort : sortByKey (dumpsE l₁) = sortByKey (dumpsE l₂) := by
        rw [hE]
        exact sortByKey_eq_of_perm hmap hn
      simp [dumps, hsort]

theorem keyPermL_dumps : ∀ {l₁ l₂ : List Json}, KeyPermL l₁ l₂ →
    wfL l₂ = true → dumpsL l₁ = dumpsL l₂
  | _, _, .nil, _ => rfl
  | _, _, @KeyPermL.cons _ b _ l₂ ha hl, hw => by
      have hw' : wf b = true ∧ wfL l₂ = true := by simpa [wfL] using hw
      have h1 := keyPerm_dumps ha hw'.1
      have h2 := keyPermL_dumps hl hw'.2
      simp [dumpsL, h1, h2]

theorem keyPermE_dumps : ∀ {l₁ l₂ : List (String × Json)}, KeyPermE l₁ l₂ →
    wfE l₂ = true → dumpsE l₁ = dumpsE l₂
  | _, _, .nil, _ => rfl
  | _, _, @KeyPermE.cons _ _ w _ l₂ hv hl, hw => by
      have hw' : wf w = true ∧ wfE l₂ = true := by simpa [wfE] using hw
      have h1 := keyPerm_dumps hv hw'.1
      have h2 := keyPermE_dumps hl hw'.2
      simp [dumpsE, h1, h2]
end

/--
C1: for every JSON-serializable payload and every permutation of its object
keys at any nesting depth, calculate_hash gives the same digest: the payload
is serialized with keys in a fixed sort order before hashing, so the content
hash depends only on the key/value sets, not on insertion order. Holds for
any deterministic digest function md5.
-/
theorem C1_hash_key_order_independent (md5 : String → String) (p q : Json)
    (_hp : wf p = true) (hperm : KeyPerm p q) (hq : wf q = true) :
    calculate_hash md5 p = calculate_hash md5 q := by
  unfold calculate_hash
  rw [keyPerm_dumps hperm hq]

/-- A concrete payload with nested objects, for the C1 witness. -/
def c1left : Json :=
  .obj [("b", .num 2), ("a", .obj [("y", .num 1), ("x", .num 0)])]

/-- The same payload with the keys at both nesting depths permuted. -/
def c1right : Json :=
  .obj [("a", .obj [("x", .num 0), ("y", .num 1)]), ("b", .num 2)]

theorem c1left_keyPerm_c1right : KeyPerm c1left c1right :=
  KeyPerm.obj
    (KeyPermE.cons (KeyPerm.num 2)
      (KeyPermE.cons
        (KeyPerm.obj
          (KeyPermE.cons (KeyPerm.num 1)
            (KeyPermE.cons (KeyPerm.num 0) KeyPermE.nil))
          (List.Perm.swap ("x", Json.num 0) ("y", Json.num 1) []))
        KeyPermE.nil))
    (List.Perm.swap ("a", Json.obj [("x", .num 0), ("y", .num 1)])
      ("b", Json.num 2) [])

theorem C1_hash_key_order_independent_witness :
    wf c1left = true ∧ wf c1right = true ∧
      calculate_hash id c1left = calculate_hash id c1right :=
  ⟨by decide, by decide,
    C1_hash_key_order_independent id c1left c1right (by decide)
      c1left_keyPerm_c1right (by decide)⟩

/--
The delta record built by DeltaDownloader.compute_delta
(src/delta_downloader.py lines 58-87): added and removed map productId to a
record, modified maps productId to the (old, new) pair. Entry order follows
the source's iteration order.
-/
structure Delta where
  added : List (String × Json)
  removed : List (String × Json)
  modified : List (String × (Json × Json))

/-- The empty delta value built at the top of compute_delta. -/
def emptyDelta : Delta := ⟨[], [], []⟩

/--
The two loops of compute_delta over the product dictionaries
(src/delta_downloader.py lines 72-87), with the per-key appends written as
filters in the same iteration order: a productId of new_products that is not
in old_products is added; one present in both with an unequal record is
modified with its old and new value; a productId of old_products absent from
new_products is removed.
-/
def compute_delta_core (old_products new_products : List (String × Json)) :
    Delta :=
  { added := new_products.filter (fun kv => (lookupJ old_products kv.1).isNone)
    removed :=
      old_products.filter (fun kv => (lookupJ new_products kv.1).isNone)
    modified := new_products.filterMap (fun kv =>
      match lookupJ old_products kv.1 with
      | some oldv =>
          if jeq kv.2 oldv then none else some (kv.1, (oldv, kv.2))
      | none => none) }

/-- Python's d.get(key, default) on a value that must be a dict: none models
the AttributeError raised when .get is called on a non-dict. -/
def dictGet (j : Json) (k : String) (dflt : Json) : Option Json :=
  match j with
  | .obj l => some ((lookupJ l k).getD dflt)
  | _ => none

/-- Iteration over the items of a value that must be a dict (the .items()
calls and key-membership tests of compute_delta): none models the exception
raised on a non-dict products value. -/
def asItems (j : Json) : Option (List (String × Json)) :=
  match j with
  | .obj l => some l
  | _ => none

/--
DeltaDownloader.compute_delta (src/delta_downloader.py lines 58-87) on whole
payloads: both products dictionaries are extracted with .get('products', {})
and iterated; a none result models the exception Python raises when a payload
or its products field is not a dict, which process_download's outer try
converts into a (False, empty) result.
-/
def compute_delta (old_data new_data : Json) : Option Delta := do
  let oldp ← dictGet old_data "products" (.obj [])
  let newp ← dictGet new_data "products" (.obj [])
  let old_products ← asItems oldp
  let new_products ← asItems newp
  return compute_delta_core old_products new_products

/-- The products dictionary of a payload, when the payload is a dict whose
products field (defaulting to the empty dict) is itself a dict — the shape on
which compute_delta runs without raising. -/
def products? (j : Json) : Option (List (String × Json)) := do
  let p ← dictGet j "products" (.obj [])
  asItems p

theorem lookupJ_eq_none_iff : ∀ (l : List (String × Json)) (k : String),
    lookupJ l k = none ↔ k ∉ l.map Prod.fst
  | [], k => by simp [lookupJ]
  | (k0, v) :: l, k => by
      by_cases h : k0 = k
      · subst h
        simp [lookupJ]
      · simp [lookupJ, h, lookupJ_eq_none_iff l k, Ne.symm h]

theorem lookupJ_isSome_of_mem : ∀ {l : List (String × Json)} {k : String}
    {v : Json}, (k, v) ∈ l → (lookupJ l k).isSome = true
  | (k0, v0) :: l, k, v, hm => by
      rcases List.mem_cons.mp hm with h | h
      · cases h
        simp [lookupJ]
      · by_cases hk : k0 = k
        · simp [lookupJ, hk]
        · simpa [lookupJ, hk] using lookupJ_isSome_of_mem h

theorem lookupJ_eq_of_mem_nodup : ∀ {l : List (String × Json)} {k : String}
    {v : Json}, keysNodup (l.map Prod.fst) = true → (k, v) ∈ l →
    lookupJ l k = some v
  | (k0, v0) :: l, k, v, hn, hm => by
      have hn' : !((l.map Prod.fst).contains k0) = true ∧
          keysNodup (l.map Prod.fst) = true := by
        simpa [keysNodup] using hn
      rcases List.mem_cons.mp hm with h | h
      · cases h
        simp [lookupJ]
      · have hkl : k ∈ l.map Prod.fst :=
          List.mem_map.mpr ⟨(k, v), h, rfl⟩
        by_cases hk : k0 = k
        · subst hk
          have hnotin : k0 ∉ l.map Prod.fst := by simpa using hn'.1
          exact absurd hkl hnotin
        · simpa [lookupJ, hk] using lookupJ_eq_of_mem_nodup hn'.2 h

theorem compute_delta_eq_core {o n : Json} {op np : List (String × Json)}
    (ho : products? o = some op) (hn : products? n = some np) :
    compute_delta o n = some (compute_delta_core op np) := by
  unfold products? at ho hn
  rcases Option.bind_eq_some.mp ho with ⟨po, hpo, hio⟩
  rcases Option.bind_eq_some.mp hn with ⟨pn, hpn, hin⟩
  unfold compute_delta
  simp [hpo, hpn, hio, hin]

/--
C7: compute_delta applied to the same payload twice yields the empty delta:
every productId of the (duplicate-free-keyed) products dictionary is found
unchanged in the other copy, so nothing is recorded as added, removed or
modified.
-/
theorem C7_compute_delta_self_empty (P : Json) (np : List (String × Json))
    (h : products? P = some np)
    (hn : keysNodup (np.map Prod.fst) = true) :
    compute_delta P P = some emptyDelta := by
  rw [compute_delta_eq_core h h]
  have hadd : np.filter (fun kv => (lookupJ np kv.1).isNone) = [] := by
    rw [List.filter_eq_nil_iff]
    intro kv hkv
    rcases kv with ⟨k, v⟩
    rcases Option.isSome_iff_exists.mp (lookupJ_isSome_of_mem hkv) with ⟨w, hw⟩
    simp [hw]
  have hmod : np.filterMap (fun kv =>
      match lookupJ np kv.1 with
      | some oldv =>
          if jeq kv.2 oldv then none else some (kv.1, (oldv, kv.2))
      | none => none) = [] := by
    rw [List.filterMap_eq_nil_iff]
    intro kv hkv
    rcases kv with ⟨k, v⟩
    rw [lookupJ_eq_of_mem_nodup hn hkv]
    simp [jeq_refl]
  simp [compute_delta_core, emptyDelta, hadd, hmod]

/-- Concrete payload for the C7 witness. -/
def c7payload : Json :=
  .obj [("products", .obj [("p1", .num 1), ("p2", .str "x")]),
        ("version", .str "v1")]

theorem C7_compute_delta_self_empty_witness :
    products? c7payload = some [("p1", .num 1), ("p2", .str "x")] ∧
      keysNodup ([("p1", Json.num 1), ("p2", Json.str "x")].map Prod.fst) =
        true ∧
      compute_delta c7payload c7payload = some emptyDelta :=
  ⟨rfl, by decide,
    C7_compute_delta_self_empty c7payload [("p1", .num 1), ("p2", .str "x")]
      rfl (by decide)⟩

theorem mem_keys_of_lookupJ_some {l : List (String × Json)} {k : String}
    {v : Json} (h : lookupJ l k = some v) : k ∈ l.map Prod.fst := by
  by_contra hc
  rw [← lookupJ_eq_none_iff] at hc
  simp [hc] at h

/--
C8: for every pair of payloads on which compute_delta runs, every productId
appears in at most one of the added, removed and modified maps; the keys of
added are exactly those of the new products absent from the old, the keys of
removed exactly those of the old products absent from the new, and every key
of modified lies in both products dictionaries.
-/
theorem C8_delta_partition (o n : Json) (op np : List (String × Json))
    (d : Delta) (ho : products? o = some op) (hn : products? n = some np)
    (hd : compute_delta o n = some d) :
    (∀ k, k ∈ d.added.map Prod.fst ↔
        k ∈ np.map Prod.fst ∧ k ∉ op.map Prod.fst) ∧
    (∀ k, k ∈ d.removed.map Prod.fst ↔
        k ∈ op.map Prod.fst ∧ k ∉ np.map Prod.fst) ∧
    (∀ k, k ∈ d.modified.map Prod.fst →
        k ∈ op.map Prod.fst ∧ k ∈ np.map Prod.fst) ∧
    (∀ k, ¬(k ∈ d.added.map Prod.fst ∧ k ∈ d.removed.map Prod.fst) ∧
      ¬(k ∈ d.added.map Prod.fst ∧ k ∈ d.modified.map Prod.fst) ∧
      ¬(k ∈ d.removed.map Prod.fst ∧ k ∈ d.modified.map Prod.fst)) := by
  have hcore := compute_delta_eq_core ho hn
  rw [hd] at hcore
  obtain rfl : d = compute_delta_core op np := Option.some.inj hcore
  have hAdd : ∀ k, k ∈ (compute_delta_core op np).added.map Prod.fst ↔
      k ∈ np.map Prod.fst ∧ k ∉ op.map Prod.fst := by
    intro k
    constructor
    · intro hk
      rcases List.mem_map.mp hk with ⟨⟨k', v⟩, hmem, rfl⟩
      rcases List.mem_filter.mp hmem with ⟨hmemnp, hpred⟩
      refine ⟨List.mem_map.mpr ⟨(k', v), hmemnp, rfl⟩, ?_⟩
      rw [← lookupJ_eq_none_iff]
      exact Option.isNone_iff_eq_none.mp hpred
    · rintro ⟨hknp, hkop⟩
      rcases List.mem_map.mp hknp with ⟨⟨k', v⟩, hmem, rfl⟩
      refine List.mem_map.mpr ⟨(k', v), List.mem_filter.mpr ⟨hmem, ?_⟩, rfl⟩
      have : lookupJ op k' = none := (lookupJ_eq_none_iff op k').mpr hkop
      simp [this]
  have hRem : ∀ k, k ∈ (compute_delta_core op np).removed.map Prod.fst ↔
      k ∈ op.map Prod.fst ∧ k ∉ np.map Prod.fst := by
    intro k
    constructor
    · intro hk
      rcases List.mem_map.mp hk with ⟨⟨k', v⟩, hmem, rfl⟩
      rcases List.mem_filter.mp hmem with ⟨hmemop, hpred⟩
      refine ⟨List.mem_map.mpr ⟨(k', v), hmemop, rfl⟩, ?_⟩
      rw [← lookupJ_eq_none_iff]
      exact Option.isNone_iff_eq_none.mp hpred
    · rintro ⟨hkop, hknp⟩
      rcases List.mem_map.mp hkop with ⟨⟨k', v⟩, hmem, rfl⟩
      refine List.mem_map.mpr ⟨(k', v), List.mem_filter.mpr ⟨hmem, ?_⟩, rfl⟩
      have : lookupJ np k' = none := (lookupJ_eq_none_iff np k').mpr hknp
      simp [this]
  have hMod : ∀ k, k ∈ (compute_delta_core op np).modified.map Prod.fst →
      k ∈ op.map Prod.fst ∧ k ∈ np.map Prod.fst := by
    intro k hk
    rcases List.mem_map.mp hk with ⟨⟨k', pair⟩, hmem, rfl⟩
    rcases List.mem_filterMap.mp hmem with ⟨⟨k2, v⟩, hmemnp, heq⟩
    cases hl : lookupJ op k2 with
    | none => rw [hl] at heq; simp at heq
    | some oldv =>
      rw [hl] at heq
      by_cases hj : jeq v oldv = true
      · simp [hj] at heq
      · simp only [hj, Bool.false_eq_true, if_false, Option.some.injEq,
          Prod.mk.injEq] at heq
        obtain ⟨hk2, -⟩ := heq
        subst hk2
        exact ⟨mem_keys_of_lookupJ_some hl,
          List.mem_map.mpr ⟨(k2, v), hmemnp, rfl⟩⟩
  refine ⟨hAdd, hRem, hMod, fun k => ⟨?_, ?_, ?_⟩⟩
  · rintro ⟨ha, hr⟩
    exact ((hAdd k).mp ha).2 ((hRem k).mp hr).1
  · rintro ⟨ha, hm⟩
    exact ((hAdd k).mp ha).2 (hMod k hm).1
  · rintro ⟨hr, hm⟩
    exact ((hRem k).mp hr).2 (hMod k hm).2

/-- Concrete old payload for the C8 witness. -/
def c8old : Json := .obj [("products", .obj [("a", .num 1), ("b", .num 2)])]

/-- Concrete new payload for the C8 witness. -/
def c8new : Json := .obj [("products", .obj [("b", .num 3), ("c", .num 4)])]

/-- Products of c8old. -/
def c8op : List (String × Json) := [("a", .num 1), ("b", .num 2)]

/-- Products of c8new. -/
def c8np : List (String × Json) := [("b", .num 3), ("c", .num 4)]

theorem C8_delta_partition_witness :
    products? c8old = some c8op ∧ products? c8new = some c8np ∧
    compute_delta c8old c8new = some (compute_delta_core c8op c8np) ∧
    ("c" ∈ (compute_delta_core c8op c8np).added.map Prod.fst ↔
      "c" ∈ c8np.map Prod.fst ∧ "c" ∉ c8op.map Prod.fst) :=
  ⟨rfl, rfl, rfl,
    (C8_delta_partition c8old c8new c8op c8np (compute_delta_core c8op c8np)
      rfl rfl rfl).1 "c"⟩

/-- Content of one on-disk JSON file: either bytes that parse as JSON, or
bytes json.load rejects (for instance the remains of an interrupted write). -/
inductive FileData where
  | json (j : Json) : FileData
  | garbage : FileData

/-- The two files DeltaDownloader keeps per (service, region) key — the
snapshot cache record and the delta history — none meaning the file does not
exist. -/
structure DDState where
  cacheFile : Option FileData
  histFile : Option FileData

/-- Python's x or default on an optional parsed value: the default when x is
None or falsy (the cached_data or ... expression on line 129). -/
def pyOr (x : Option Json) (dflt : Json) : Json :=
  match x with
  | some j => if truthy j then j else dflt
  | none => dflt

/-- Python's not x on an optional parsed value (the not cached_data test on
line 128). -/
def pyNotOpt : Option Json → Bool
  | some j => !truthy j
  | none => true

/-- Python's == between the optional stored hash value read from the cache
file and the fresh hexdigest string (line 128): true only when the stored
value is exactly that string. -/
def hashEq (cached_hash : Option Json) (new_hash : String) : Bool :=
  match cached_hash with
  | some j => jeq j (.str new_hash)
  | none => false

/-- The delta dict of compute_delta as serialized into the history file. -/
def deltaToJson (d : Delta) : Json :=
  .obj [("added", .obj d.added), ("removed", .obj d.removed),
        ("modified", .obj (d.modified.map (fun x =>
          (x.1, Json.obj [("old", x.2.1), ("new", x.2.2)]))))]

/-- The history entry appended by save_delta_history (lines 98-101): a dict
holding the timestamp and the delta. -/
def histEntry (deltaJ : Json) (ts : String) : Json :=
  .obj [("timestamp", .str ts), ("delta", deltaJ)]

/-- Python's history[-n:]: the last n elements of a list (the whole list when
it is shorter). -/
def lastN {α : Type} (n : Nat) (l : List α) : List α :=
  l.drop (l.length - n)

namespace DeltaDownloader

/-- DeltaDownloader.get_cached_data (src/delta_downloader.py lines 30-43):
read the cache file and return its data and hash fields. An absent file, a
file json.load rejects, or a parsed value that is not a dict (whose .get
raises, caught by the function's try/except) all give (None, None). -/
def get_cached_data : Option FileData → Option Json × Option Json
  | some (.json (.obj l)) => (lookupJ l "data", lookupJ l "hash")
  | _ => (none, none)

/-- DeltaDownloader.save_to_cache (src/delta_downloader.py lines 45-56):
overwrite the cache file with the dict of data, hash and timestamp. The write
opens the final path directly with mode w; writeOk false models an exception
during the dump — caught by the function's own try/except, but the file has
already been truncated, leaving bytes json.load rejects. -/
def save_to_cache (data : Json) (data_hash ts : String) (writeOk : Bool)
    (_file : Option FileData) : Option FileData :=
  if writeOk then
    some (.json (.obj [("data", data), ("hash", .str data_hash),
      ("timestamp", .str ts)]))
  else some .garbage

/-- DeltaDownloader.save_delta_history (src/delta_downloader.py lines
89-109): read the history file (an absent file yields the empty list),
append the timestamp/delta entry, keep only the last 10 entries, write back.
A file whose parsed JSON is not a list makes history.append raise, and a file
json.load rejects makes the load raise; both are caught by the function's own
try/except before anything is written, leaving the file untouched. writeOk
false models an interrupted final write, leaving bytes json.load rejects. -/
def save_delta_history (deltaJ : Json) (ts : String) (writeOk : Bool)
    (file : Option FileData) : Option FileData :=
  match file with
  | none =>
      if writeOk then
        some (.json (.arr (lastN 10 ([] ++ [histEntry deltaJ ts]))))
      else some .garbage
  | some (.json (.arr l)) =>
      if writeOk then
        some (.json (.arr (lastN 10 (l ++ [histEntry deltaJ ts]))))
      else some .garbage
  | some _ => file

/--
DeltaDownloader.process_download (src/delta_downloader.py lines 111-138) for
one (service, region) key. The effectful context is passed explicitly: md5
the digest function, fetched the value download_pricing_data returned (none
for a failed download), cacheOk and histOk injecting write failures into
save_to_cache and save_delta_history, and ts the current timestamp. Returns
the (has_changes, delta) pair — none standing for the empty dict — together
with the resulting file state. An exception raised inside the body (a
non-dict payload or cached record reaching compute_delta) is caught by the
outer try and yields (False, empty) with the files untouched; the two save
helpers catch their own I/O errors.
-/
def process_download (md5 : String → String) (fetched : Option Json)
    (cacheOk histOk : Bool) (ts : String) (st : DDState) :
    (Bool × Option Delta) × DDState :=
  match fetched with
  | none => ((false, none), st)
  | some new_data =>
    if !truthy new_data then ((false, none), st)
    else
      let new_hash := calculate_hash md5 new_data
      let cached := get_cached_data st.cacheFile
      if pyNotOpt cached.1 || !hashEq cached.2 new_hash then
        match compute_delta (pyOr cached.1 (.obj [("products", .obj [])]))
            new_data with
        | none => ((false, none), st)
        | some delta =>
            let cf := save_to_cache new_data new_hash ts cacheOk st.cacheFile
            let hf := save_delta_history (deltaToJson delta) ts histOk
              st.histFile
            ((true, some delta), ⟨cf, hf⟩)
      else ((false, none), st)

end DeltaDownloader

theorem lastN_lastN {α : Type} {m c : Nat} (h : m ≤ c) (l : List α) :
    lastN m (lastN c l) = lastN m l := by
  unfold lastN
  rw [List.length_drop, List.drop_drop]
  congr 1
  omega

theorem lastN_append {α : Type} (c : Nat) (x y : List α) :
    lastN c (x ++ y) =
      if c ≤ y.length then lastN c y else lastN (c - y.length) x ++ y := by
  unfold lastN
  rw [List.length_append]
  by_cases h : c ≤ y.length
  · rw [if_pos h,
      show x.length + y.length - c = x.length + (y.length - c) by omega,
      List.drop_append]
  · rw [if_neg h, List.drop_append_of_le_length (by omega)]
    congr 2
    omega

theorem lastN_append_lastN {α : Type} (c : Nat) (x y : List α) :
    lastN c (lastN c x ++ y) = lastN c (x ++ y) := by
  rw [lastN_append, lastN_append]
  by_cases h : c ≤ y.length
  · rw [if_pos h, if_pos h]
  · rw [if_neg h, if_neg h, lastN_lastN (by omega)]

theorem lastN_length_le {α : Type} (n : Nat) (l : List α) :
    (lastN n l).length ≤ n := by
  unfold lastN
  rw [List.length_drop]
  omega

/-- One successful append to an existing history array, unfolded. -/
theorem save_delta_history_arr (dJ : Json) (ts : String) (l : List Json) :
    DeltaDownloader.save_delta_history dJ ts true (some (.json (.arr l))) =
      some (.json (.arr (lastN 10 (l ++ [histEntry dJ ts])))) := rfl

/-- A run of successful appends to an existing history array keeps exactly
the last 10 of the old entries followed by the appended ones. -/
theorem save_delta_history_fold :
    ∀ (es : List (Json × String)) (e : Json × String) (l : List Json),
    ((e :: es).foldl
        (fun f p => DeltaDownloader.save_delta_history p.1 p.2 true f)
        (some (.json (.arr l)))) =
      some (.json (.arr (lastN 10
        (l ++ (e :: es).map (fun p => histEntry p.1 p.2)))))
  | [], e, l => rfl
  | e' :: es, e, l => by
      rw [List.foldl_cons, save_delta_history_arr]
      rw [save_delta_history_fold es e' (lastN 10 (l ++ [histEntry e.1 e.2]))]
      rw [lastN_append_lastN]
      rw [List.append_assoc]
      rfl

/-- The number of history entries the file holds, when it holds a JSON
array at all. -/
def histEntryCount : Option FileData → Option Nat
  | some (.json (.arr l)) => some l.length
  | _ => none

/--
C4 counterexample: starting from a history-file state whose content is valid
JSON but not a list (here the number 0), every append raises inside
save_delta_history's try/except before anything is written, so fifteen
appends leave the file unchanged and it never holds 10 entries — the claim's
quantification over every starting state fails for non-list states.
-/
theorem C4_history_cap_counterexample :
    histEntryCount ((List.replicate 15 (Json.obj [], "t")).foldl
        (fun f p => DeltaDownloader.save_delta_history p.1 p.2 true f)
        (some (.json (.num 0)))) ≠ some 10 := by
  decide

/--
C4 amended: for starting states the history file can actually reach through
save_delta_history — an absent file or a file holding a JSON array — the cap
holds as claimed: one successful append leaves at most 10 entries, and
fifteen successful appends leave exactly 10 entries, namely the 10 most
recently appended records with the oldest discarded first. (Only the claim's
"starting from any state" had to be restricted: a file whose JSON is not a
list makes every append a logged no-op, as the counterexample shows.)
-/
theorem C4_history_cap_amended (dJ : Json) (ts : String) (l : List Json)
    (dts : List (Json × String)) (h15 : dts.length = 15) :
    (DeltaDownloader.save_delta_history dJ ts true (some (.json (.arr l))) =
      some (.json (.arr (lastN 10 (l ++ [histEntry dJ ts])))) ∧
      (lastN 10 (l ++ [histEntry dJ ts])).length ≤ 10) ∧
    (dts.foldl (fun f p => DeltaDownloader.save_delta_history p.1 p.2 true f)
        (some (.json (.arr l))) =
      some (.json (.arr (lastN 10 (dts.map (fun p => histEntry p.1 p.2))))) ∧
      dts.foldl (fun f p => DeltaDownloader.save_delta_history p.1 p.2 true f)
          none =
        some (.json (.arr (lastN 10 (dts.map (fun p => histEntry p.1 p.2))))) ∧
      (lastN 10 (dts.map (fun p => histEntry p.1 p.2))).length = 10) := by
  rcases dts with - | ⟨e, es⟩
  · simp at h15
  have hlenmap : ((e :: es).map (fun p => histEntry p.1 p.2)).length = 15 := by
    rw [List.length_map]
    exact h15
  have hdropfull : lastN 10 (l ++ (e :: es).map (fun p => histEntry p.1 p.2)) =
      lastN 10 ((e :: es).map (fun p => histEntry p.1 p.2)) := by
    rw [lastN_append, if_pos (by rw [hlenmap]; omega)]
  refine ⟨⟨save_delta_history_arr dJ ts l, lastN_length_le 10 _⟩, ?_, ?_, ?_⟩
  · rw [save_delta_history_fold es e l, hdropfull]
  · have hnone : ((e :: es).foldl
        (fun f p => DeltaDownloader.save_delta_history p.1 p.2 true f)
        none) =
        ((e :: es).foldl
          (fun f p => DeltaDownloader.save_delta_history p.1 p.2 true f)
          (some (.json (.arr [])))) := by
      rw [List.foldl_cons, List.foldl_cons]
      rfl
    rw [hnone, save_delta_history_fold es e [], List.nil_append]
  · unfold lastN
    rw [List.length_drop, hlenmap]

theorem C4_history_cap_amended_witness :
    (List.replicate 15 (Json.null, "t")).length = 15 ∧
    ((List.replicate 15 (Json.null, "t")).foldl
        (fun f p => DeltaDownloader.save_delta_history p.1 p.2 true f)
        none =
      some (.json (.arr (lastN 10 ((List.replicate 15 (Json.null, "t")).map
        (fun p => histEntry p.1 p.2)))))) :=
  ⟨by decide,
    ((C4_history_cap_amended .null "t" [] (List.replicate 15 (Json.null, "t"))
      (by decide)).2.2).1⟩

theorem get_cached_data_record (P : Json) (h t : String) :
    DeltaDownloader.get_cached_data (some (.json (.obj
      [("data", P), ("hash", .str h), ("timestamp", .str t)]))) =
    (some P, some (.str h)) := by
  simp [DeltaDownloader.get_cached_data, lookupJ]

/-- When the fetched payload is truthy, the cached data field is present and
truthy, and the stored hash equals the fresh hash, process_download takes the
else branch: no delta, no write, state untouched. -/
theorem process_download_skip (md5 : String → String) (P : Json)
    (cko hko : Bool) (ts : String) (st : DDState)
    (htr : truthy P = true)
    (hdata : pyNotOpt (DeltaDownloader.get_cached_data st.cacheFile).1 = false)
    (hhash : hashEq (DeltaDownloader.get_cached_data st.cacheFile).2
      (calculate_hash md5 P) = true) :
    DeltaDownloader.process_download md5 (some P) cko hko ts st =
      ((false, none), st) := by
  unfold DeltaDownloader.process_download
  simp [htr, hdata, hhash]

/-- An emitting run with a successful cache write stores the payload and its
hash in the cache file. -/
theorem process_download_true_state (md5 : String → String) (P : Json)
    (hko : Bool) (ts : String) (st st' : DDState) (d : Delta)
    (h : DeltaDownloader.process_download md5 (some P) true hko ts st =
      ((true, some d), st')) :
    truthy P = true ∧
    st'.cacheFile = some (.json (.obj [("data", P),
      ("hash", .str (calculate_hash md5 P)), ("timestamp", .str ts)])) := by
  by_cases htr : truthy P = true
  · refine ⟨htr, ?_⟩
    unfold DeltaDownloader.process_download at h
    simp only [htr, Bool.not_true, Bool.false_eq_true, if_false] at h
    split at h
    · split at h
      · simp at h
      · injection h with h1 h2
        rw [← h2]
        simp [DeltaDownloader.save_to_cache]
    · simp at h
  · exfalso
    rw [Bool.not_eq_true] at htr
    unfold DeltaDownloader.process_download at h
    simp [htr] at h

/-- Payload used in the C2 counterexample. -/
def c2payload : Json := .obj [("products", .obj [("p1", .num 1)])]

/-- A cache-file state that parses fine and holds a readable stored hash —
equal to the hash of the incoming payload — but no data field at all. -/
def c2cache : Option FileData :=
  some (.json (.obj [("hash", .str (calculate_hash id c2payload))]))

/--
C2 counterexample: from a cache-file state whose stored hash can be read and
equals the new payload's content hash but whose data field is absent,
process_download still emits a DeltaRecord (returns has_changes true),
because the not cached_data test on line 128 short-circuits before the hash
comparison. The claim's "only when the hash differs" fails for such states.
-/
theorem C2_change_detection_counterexample :
    hashEq (DeltaDownloader.get_cached_data c2cache).2
        (calculate_hash id c2payload) = true ∧
    (DeltaDownloader.process_download id (some c2payload) true true "t"
        ⟨c2cache, none⟩).1.1 = true := by
  constructor
  · decide
  · decide

/--
C2 amended: a DeltaRecord is emitted only when the cached data field is
absent or empty (Python-falsy) or the stored hash differs from the new
payload's content hash; and after an emitting run whose cache write
succeeded, re-fetching the identical payload emits nothing and leaves the
file state untouched (the second run of the claim's scenario produces no new
DeltaHistory entry). Only the first conjunct's extra "or the data field is
absent/empty" escape was forced by the counterexample.
-/
theorem C2_change_detection_amended (md5 : String → String) (P : Json)
    (cko hko cko2 hko2 : Bool) (ts ts2 : String) (st st' : DDState)
    (d : Delta) :
    ((DeltaDownloader.process_download md5 (some P) cko hko ts st).1.1 =
        true →
      pyNotOpt (DeltaDownloader.get_cached_data st.cacheFile).1 = true ∨
      hashEq (DeltaDownloader.get_cached_data st.cacheFile).2
        (calculate_hash md5 P) = false) ∧
    (DeltaDownloader.process_download md5 (some P) true hko ts st =
        ((true, some d), st') →
      DeltaDownloader.process_download md5 (some P) cko2 hko2 ts2 st' =
        ((false, none), st')) := by
  constructor
  · intro h
    by_contra hc
    push_neg at hc
    obtain ⟨h1, h2⟩ := hc
    replace h1 : pyNotOpt (DeltaDownloader.get_cached_data st.cacheFile).1 =
        false := by simpa using h1
    replace h2 : hashEq (DeltaDownloader.get_cached_data st.cacheFile).2
        (calculate_hash md5 P) = true := by simpa using h2
    by_cases htr : truthy P = true
    · unfold DeltaDownloader.process_download at h
      simp [htr, h1, h2] at h
    · rw [Bool.not_eq_true] at htr
      unfold DeltaDownloader.process_download at h
      simp [htr] at h
  · intro h
    obtain ⟨htr, hcache⟩ := process_download_true_state md5 P hko ts st st' d h
    apply process_download_skip
    · exact htr
    · rw [hcache, get_cached_data_record]
      simp [pyNotOpt, htr]
    · rw [hcache, get_cached_data_record]
      simp [hashEq, jeq]

/-- The outcome of the first emitting run in the C2 witness scenario. -/
def c2run1 : (Bool × Option Delta) × DDState :=
  DeltaDownloader.process_download id (some c2payload) true true "t1"
    ⟨none, none⟩

theorem C2_change_detection_amended_witness :
    DeltaDownloader.process_download id (some c2payload) true true "t2"
        c2run1.2 =
      ((false, none), c2run1.2) :=
  (C2_change_detection_amended id c2payload true true true true "t1" "t2"
      ⟨none, none⟩ c2run1.2 (compute_delta_core [] [("p1", Json.num 1)])).2
    rfl

theorem compute_delta_core_nil (np : List (String × Json)) :
    compute_delta_core [] np = ⟨np, [], []⟩ := by
  unfold compute_delta_core
  simp [lookupJ]

theorem compute_delta_emptyOld (P : Json) (np : List (String × Json))
    (hP : products? P = some np) :
    compute_delta (Json.obj [("products", Json.obj [])]) P =
      some ⟨np, [], []⟩ := by
  unfold products? at hP
  rcases Option.bind_eq_some.mp hP with ⟨pn, hpn, hin⟩
  unfold compute_delta
  rw [show dictGet (Json.obj [("products", Json.obj [])]) "products"
    (Json.obj []) = some (Json.obj []) from rfl]
  simp only [Option.bind_eq_bind, Option.some_bind]
  rw [hpn]
  simp only [Option.bind_eq_bind, Option.some_bind]
  rw [show asItems (Json.obj []) = some ([] : List (String × Json)) from rfl]
  simp only [Option.bind_eq_bind, Option.some_bind]
  rw [hin]
  simp only [Option.bind_eq_bind, Option.some_bind]
  rw [compute_delta_core_nil]
  rfl

/--
C9: on the first-ever fetch for a key — no cache file exists — the absent old
payload is replaced by the empty products mapping, so the emitted delta's
added map is exactly the products dictionary of the fetched payload and its
removed and modified maps are empty, and the change is reported.
-/
theorem C9_first_fetch_all_added (md5 : String → String) (P : Json)
    (np : List (String × Json)) (cko hko : Bool) (ts : String)
    (hist : Option FileData)
    (hP : products? P = some np) (htr : truthy P = true) :
    (DeltaDownloader.process_download md5 (some P) cko hko ts
        ⟨none, hist⟩).1 =
      (true, some ⟨np, [], []⟩) := by
  unfold DeltaDownloader.process_download
  simp [htr, DeltaDownloader.get_cached_data, pyNotOpt, pyOr,
    compute_delta_emptyOld P np hP]

theorem C9_first_fetch_all_added_witness :
    products? c7payload = some [("p1", .num 1), ("p2", .str "x")] ∧
    truthy c7payload = true ∧
    (DeltaDownloader.process_download id (some c7payload) true true "t"
        ⟨none, none⟩).1 =
      (true, some ⟨[("p1", .num 1), ("p2", .str "x")], [], []⟩) :=
  ⟨rfl, by decide,
    C9_first_fetch_all_added id c7payload [("p1", .num 1), ("p2", .str "x")]
      true true "t" none rfl (by decide)⟩

/--
For the fetch outcomes on which download_pricing_data returns (a parsed
payload or None), process_download catches every exception of its body at
the outer try and the save helpers catch their own I/O errors, so for every
cache-file state (including corrupt files) and injected write failure it
returns either (True, delta) or (False, empty), and a failed (None) or
Python-falsy download always yields (False, empty) with the file state
untouched. The raising outcome of the fetch call is handled by
process_download_exc below.
-/
theorem process_download_result_shape (md5 : String → String)
    (fetched : Option Json) (cko hko : Bool) (ts : String) (st : DDState) :
    ((DeltaDownloader.process_download md5 fetched cko hko ts st).1 =
        (false, none) ∨
      ∃ d, (DeltaDownloader.process_download md5 fetched cko hko ts st).1 =
        (true, some d)) ∧
    (∀ P, fetched = some P → truthy P = false →
      DeltaDownloader.process_download md5 fetched cko hko ts st =
        ((false, none), st)) ∧
    (fetched = none →
      DeltaDownloader.process_download md5 fetched cko hko ts st =
        ((false, none), st)) := by
  rcases fetched with - | P
  · exact ⟨Or.inl rfl, fun P h => Option.noConfusion h, fun _ => rfl⟩
  · refine ⟨?_, ?_, fun h => Option.noConfusion h⟩
    · by_cases htr : truthy P = true
      · unfold DeltaDownloader.process_download
        simp only [htr, Bool.not_true, Bool.false_eq_true, if_false]
        split
        · split
          · exact Or.inl rfl
          · exact Or.inr ⟨_, rfl⟩
        · exact Or.inl rfl
      · rw [Bool.not_eq_true] at htr
        unfold DeltaDownloader.process_download
        simp [htr]
    · intro P2 hP2 hfalse
      obtain rfl := Option.some.inj hP2
      unfold DeltaDownloader.process_download
      simp [hfalse]

/--
The full outcome space of the download_pricing_data call at
src/delta_downloader.py line 118: the standalone fetch constructs a fresh
AWSPriceDownloader on every call, and its __init__
(src/aws_price_downloader.py lines 60-65) catches a logging or directory
setup failure and raises SystemExit(1). So a fetch either yields a parsed
payload, returns None, or raises SystemExit — which is a BaseException but
not an Exception.
-/
inductive FetchOutcome where
  | payload (j : Json) : FetchOutcome
  | failed : FetchOutcome
  | setupExit (code : Nat) : FetchOutcome

/-- An exception that escapes process_download. Only SystemExit can: every
Exception raised in the body is caught by the except Exception at line 136,
but SystemExit does not derive from Exception. -/
inductive EscapingExc where
  | systemExit (code : Nat) : EscapingExc

namespace DeltaDownloader

/--
DeltaDownloader.process_download over the fetch call's full outcome space:
when the AWSPriceDownloader constructed inside download_pricing_data fails
its setup, the SystemExit(1) it raises passes through the except Exception
at line 136 and propagates to the caller (the error result); every
non-raising outcome is handled exactly as in process_download.
-/
def process_download_exc (md5 : String → String) (fetched : FetchOutcome)
    (cacheOk histOk : Bool) (ts : String) (st : DDState) :
    Except EscapingExc ((Bool × Option Delta) × DDState) :=
  match fetched with
  | .setupExit code => .error (.systemExit code)
  | .payload j => .ok (process_download md5 (some j) cacheOk histOk ts st)
  | .failed => .ok (process_download md5 none cacheOk histOk ts st)

end DeltaDownloader

/--
C10 counterexample: a reachable failure mode of the fetch does propagate an
exception to process_download's caller. When the AWSPriceDownloader
constructed by the fetch at line 118 fails its logging/directory setup, its
__init__ raises SystemExit(1); SystemExit is not an Exception, so the
except Exception at line 136 does not catch it, and process_download
returns neither (True, delta) nor (False, empty).
-/
theorem C10_no_exception_escape_counterexample :
    DeltaDownloader.process_download_exc id (.setupExit 1) true true "t"
        ⟨none, none⟩ =
      .error (.systemExit 1) := rfl

/--
C10 amended: process_download catches every Exception its body raises — for
every fetch result, cache-file state (corrupt files included) and injected
write failure it returns (True, delta) or (False, empty), and a failed or
Python-falsy download always yields (False, empty) with the file state
untouched — except for one escaping path: a SystemExit raised while the
fetch constructs its AWSPriceDownloader (setup failure) is not an Exception
and propagates to the caller.
-/
theorem C10_no_exception_escape_amended (md5 : String → String)
    (fetched : FetchOutcome) (cko hko : Bool) (ts : String) (st : DDState) :
    ((∃ code, fetched = .setupExit code ∧
        DeltaDownloader.process_download_exc md5 fetched cko hko ts st =
          .error (.systemExit code)) ∨
      (∃ r, DeltaDownloader.process_download_exc md5 fetched cko hko ts st =
          .ok r ∧ (r.1 = (false, none) ∨ ∃ d, r.1 = (true, some d)))) ∧
    (fetched = .failed →
      DeltaDownloader.process_download_exc md5 fetched cko hko ts st =
        .ok ((false, none), st)) ∧
    (∀ j, fetched = .payload j → truthy j = false →
      DeltaDownloader.process_download_exc md5 fetched cko hko ts st =
        .ok ((false, none), st)) := by
  rcases fetched with j | - | code
  · refine ⟨Or.inr ⟨DeltaDownloader.process_download md5 (some j) cko hko
      ts st, rfl, ?_⟩, fun h => FetchOutcome.noConfusion h, ?_⟩
    · exact (process_download_result_shape md5 (some j) cko hko ts st).1
    · intro j2 hj2 hfalse
      obtain rfl : j = j2 := by cases hj2; rfl
      show Except.ok (DeltaDownloader.process_download md5 (some j) cko hko
        ts st) = _
      rw [(process_download_result_shape md5 (some j) cko hko ts st).2.1 j
        rfl hfalse]
  · refine ⟨Or.inr ⟨DeltaDownloader.process_download md5 none cko hko ts st,
      rfl, ?_⟩, fun _ => ?_, fun j hj => FetchOutcome.noConfusion hj⟩
    · exact (process_download_result_shape md5 none cko hko ts st).1
    · show Except.ok (DeltaDownloader.process_download md5 none cko hko ts
        st) = _
      rw [(process_download_result_shape md5 none cko hko ts st).2.2 rfl]
  · exact ⟨Or.inl ⟨code, rfl, rfl⟩, fun h => FetchOutcome.noConfusion h,
      fun j hj => FetchOutcome.noConfusion hj⟩

theorem C10_no_exception_escape_amended_witness :
    DeltaDownloader.process_download_exc id .failed true true "t"
        ⟨some .garbage, none⟩ =
      .ok ((false, none), ⟨some .garbage, none⟩) :=
  (C10_no_exception_escape_amended id .failed true true "t"
    ⟨some .garbage, none⟩).2.1 rfl

/-- One primitive file operation performed by the save paths. openTrunc is
open(path, "w"), which truncates the file at once; writeFull is a completed
json.dump into that handle; replace is os.replace, a single atomic rename. -/
inductive FileOp where
  | openTrunc (path : String) : FileOp
  | writeFull (path : String) (content : Json) : FileOp
  | replace (src dst : String) : FileOp

/-- Observable content of one path: absent, incomplete (truncated or
half-written — any state between open(path, "w") and a completed dump), or a
full JSON document. -/
inductive FContent where
  | absent : FContent
  | incomplete : FContent
  | val (j : Json) : FContent

/-- A filesystem assigns a content to every path. -/
def FS : Type := String → FContent

/-- Effect of one file operation on the filesystem. os.replace moves the
source's content onto the destination in one step. -/
def applyOp (op : FileOp) (fs : FS) : FS :=
  match op with
  | .openTrunc p => fun q => if q = p then .incomplete else fs q
  | .writeFull p j => fun q => if q = p then .val j else fs q
  | .replace src dst =>
      fun q => if q = dst then fs src else if q = src then .absent else fs q

/-- Effect of a sequence of file operations, first to last. -/
def applyOps (ops : List FileOp) (fs : FS) : FS :=
  ops.foldl (fun f op => applyOp op f) fs

/-- Path of the raw payload file written by save_pricing_data:
base/region/service_pricing.json. -/
def pricingPath (base region service : String) : String :=
  base ++ "/" ++ region ++ "/" ++ service ++ "_pricing.json"

/-- Path of the snapshot cache record (DeltaDownloader._get_cache_path). -/
def cachePath (cache_dir service region : String) : String :=
  cache_dir ++ "/" ++ service ++ "_" ++ region ++ "_cache.json"

/-- Path of the delta history file (DeltaDownloader._get_delta_path). -/
def deltaPath (cache_dir service region : String) : String :=
  cache_dir ++ "/" ++ service ++ "_" ++ region ++ "_delta_history.json"

/-- I/O trace of AWSPriceDownloader.save_pricing_data
(src/aws_price_downloader.py lines 157-182): dump the payload into
filepath + ".tmp", then os.replace it onto the final path. -/
def save_pricing_data_ops (base region service : String) (data : Json) :
    List FileOp :=
  [.openTrunc (pricingPath base region service ++ ".tmp"),
   .writeFull (pricingPath base region service ++ ".tmp") data,
   .replace (pricingPath base region service ++ ".tmp")
     (pricingPath base region service)]

/-- I/O trace of DeltaDownloader.save_to_cache (src/delta_downloader.py
lines 45-56): the final path is opened directly with mode w and dumped into —
no temporary file and no rename. -/
def save_to_cache_ops (cache_dir service region : String) (record : Json) :
    List FileOp :=
  [.openTrunc (cachePath cache_dir service region),
   .writeFull (cachePath cache_dir service region) record]

/-- I/O trace of the final write of DeltaDownloader.save_delta_history
(src/delta_downloader.py lines 106-107): also a direct open of the final
path with mode w. -/
def save_delta_history_ops (cache_dir service region : String)
    (hist : Json) : List FileOp :=
  [.openTrunc (deltaPath cache_dir service region),
   .writeFull (deltaPath cache_dir service region) hist]

/-- Atomicity of a write trace with respect to a path: stopping after any
prefix of the operations (a crash or exception at that point), the path holds
either its previous content or the complete new document — never anything
else, in particular never a truncated file. -/
def AtomicFor (final : String) (ops : List FileOp) (newContent : Json) :
    Prop :=
  ∀ (fs : FS) (n : Nat), applyOps (ops.take n) fs final = fs final ∨
    applyOps (ops.take n) fs final = .val newContent

theorem append_tmp_ne (s : String) : s ++ ".tmp" ≠ s := by
  intro h
  have hlen := congrArg String.length h
  rw [String.length_append] at hlen
  have h4 : String.length ".tmp" = 4 := rfl
  omega

/-- The temp-file-then-rename trace of save_pricing_data is atomic for the
final payload path. -/
theorem save_pricing_data_atomic (base region service : String)
    (data : Json) :
    AtomicFor (pricingPath base region service)
      (save_pricing_data_ops base region service data) data := by
  intro fs n
  have hne : pricingPath base region service ≠
      pricingPath base region service ++ ".tmp" :=
    fun h => append_tmp_ne _ h.symm
  match n with
  | 0 => exact Or.inl rfl
  | 1 =>
      left
      simp [save_pricing_data_ops, applyOps, applyOp, hne]
  | 2 =>
      left
      simp [save_pricing_data_ops, applyOps, applyOp, hne]
  | (k + 3) =>
      right
      rw [List.take_of_length_le (by simp [save_pricing_data_ops])]
      simp [save_pricing_data_ops, applyOps, applyOp, hne]

/-- The direct-write trace of save_to_cache is not atomic: interrupting right
after the open leaves a truncated file at the final path, which is neither
the previous content nor the new record. -/
theorem save_to_cache_not_atomic (cache_dir service region : String)
    (record : Json) :
    ¬ AtomicFor (cachePath cache_dir service region)
      (save_to_cache_ops cache_dir service region record) record := by
  intro h
  rcases h (fun _ => FContent.absent) 1 with h1 | h1 <;>
    simp [save_to_cache_ops, applyOps, applyOp] at h1

/-- The direct-write trace of save_delta_history is not atomic either. -/
theorem save_delta_history_not_atomic (cache_dir service region : String)
    (hist : Json) :
    ¬ AtomicFor (deltaPath cache_dir service region)
      (save_delta_history_ops cache_dir service region hist) hist := by
  intro h
  rcases h (fun _ => FContent.absent) 1 with h1 | h1 <;>
    simp [save_delta_history_ops, applyOps, applyOp] at h1

/--
C3 counterexample: the snapshot cache record is not written via a sibling
temporary file and atomic rename — save_to_cache opens the final path
directly with mode w, so stopping one operation into its trace (the open has
truncated the file, the dump has not completed) leaves a partial file visible
at the final path, refuting the claim for this artifact at a concrete input.
-/
theorem C3_atomic_write_counterexample :
    ¬ AtomicFor (cachePath "aws_pricing_data" "AmazonEC2" "ap-south-1")
      (save_to_cache_ops "aws_pricing_data" "AmazonEC2" "ap-south-1"
        (Json.obj []))
      (Json.obj []) :=
  save_to_cache_not_atomic "aws_pricing_data" "AmazonEC2" "ap-south-1"
    (Json.obj [])

/--
C3 amended: only the raw payload file is written with the sibling-temporary-
file-plus-single-atomic-rename pattern, and for it no failure point exposes a
partial file at the final path; the snapshot cache record and the delta
history file are instead opened directly with mode w and dumped in place, so
an interruption mid-write can leave a truncated file at their final paths.
-/
theorem C3_atomic_write_amended (base region service cache_dir s2 r2 :
    String) (data record hist : Json) :
    AtomicFor (pricingPath base region service)
      (save_pricing_data_ops base region service data) data ∧
    ¬ AtomicFor (cachePath cache_dir s2 r2)
      (save_to_cache_ops cache_dir s2 r2 record) record ∧
    ¬ AtomicFor (deltaPath cache_dir s2 r2)
      (save_delta_history_ops cache_dir s2 r2 hist) hist :=
  ⟨save_pricing_data_atomic base region service data,
    save_to_cache_not_atomic cache_dir s2 r2 record,
    save_delta_history_not_atomic cache_dir s2 r2 hist⟩

/-- A failure record as appended by AWSPriceDownloader._record_failure
(src/aws_price_downloader.py lines 147-155). -/
structure FailureRecord where
  service : String
  region : String
  error : String
  timestamp : String

/-- The shared mutable state of AWSPriceDownloader that download tasks update
under the instance's single data lock: the failure list and the total byte
counter. -/
structure DLState where
  failed_downloads : List FailureRecord
  total_data_downloaded : Nat

/-- The observable outcome of one HTTP attempt for one task, abstracting the
network and filesystem: the request streams a body that parses and saves
fine; or raises a transient network/server/timeout error; or yields bytes
that json.loads rejects; or parses but fails to save. -/
inductive AttemptOutcome where
  | success (size : Nat) : AttemptOutcome
  | transient (err : String) (size : Nat) : AttemptOutcome
  | malformed (err : String) (size : Nat) : AttemptOutcome
  | saveError (err : String) (size : Nat) : AttemptOutcome

/-- Whether the attempt makes download_pricing_data return True. -/
def isSuccess : AttemptOutcome → Bool
  | .success _ => true
  | _ => false

/-- Whether the attempt makes download_pricing_data append a FailureRecord:
a transient exception or a save error does, a body that is not JSON does not
(the json.JSONDecodeError arm only logs). -/
def recordsFailure : AttemptOutcome → Bool
  | .transient _ _ => true
  | .saveError _ _ => true
  | _ => false

namespace AWSPriceDownloader

/-- AWSPriceDownloader._record_failure (lines 147-155): append one failure
record under the data lock. -/
def _record_failure (service region error ts : String) (st : DLState) :
    DLState :=
  { st with failed_downloads := st.failed_downloads ++
      [⟨service, region, error, ts⟩] }

/-- AWSPriceDownloader.download_pricing_data (lines 115-145) for one attempt
with the given outcome: success saves the file and adds the streamed bytes to
the byte counter; an exception during the request is recorded as a failure;
an unparseable body is logged only — no failure record — and a save error is
recorded by save_pricing_data. In every case the function returns
(success, size) rather than raising. -/
def download_pricing_data (service region : String) (o : AttemptOutcome)
    (ts : String) (st : DLState) : (Bool × Nat) × DLState :=
  match o with
  | .success size =>
      ((true, size),
        { st with total_data_downloaded := st.total_data_downloaded + size })
  | .transient err size =>
      ((false, size), _record_failure service region err ts st)
  | .malformed _ size => ((false, size), st)
  | .saveError err size =>
      ((false, size),
        _record_failure service region ("Save error: " ++ err) ts st)

/-- The retry loop of AWSPriceDownloader.process_download (lines 184-195)
with the remaining attempt budget made structural: run
download_pricing_data; return (True, size) on success; otherwise sleep 2 to
the attempt-th time units (no modelled effect) and run the next attempt,
until the budget is exhausted, then return (False, 0). The trailing Nat of
the result is the index one past the last attempt performed — the number of
attempts made when started at attempt 0. The loop body never raises, so the
except arm of the source is unreachable. -/
def process_download_go (service region : String)
    (outcomes : Nat → AttemptOutcome) (ts : String) :
    Nat → Nat → DLState → ((Bool × Nat) × DLState) × Nat
  | 0, attempt, st => (((false, 0), st), attempt)
  | remaining + 1, attempt, st =>
      let r := download_pricing_data service region (outcomes attempt) ts st
      if r.1.1 then ((r.1, r.2), attempt + 1)
      else process_download_go service region outcomes ts remaining
        (attempt + 1) r.2

/-- AWSPriceDownloader.process_download (lines 184-195): the retry loop over
attempts 0 .. max_retries - 1. -/
def process_download (service region : String)
    (outcomes : Nat → AttemptOutcome) (max_retries : Nat) (ts : String)
    (st : DLState) : ((Bool × Nat) × DLState) × Nat :=
  process_download_go service region outcomes ts max_retries 0 st

/-- The summary printed by _show_summary (lines 232-256): total tasks
attempted, successful downloads, and the failed-downloads count — the length
of the failure list, which is also what failed_downloads.json receives when
the list is nonempty. -/
structure Summary where
  attempted : Nat
  succeeded : Nat
  failedReported : Nat

/-- AWSPriceDownloader.download_all_pricing (lines 197-230): enumerate the
cross product of services and regions (region outer, service inner), process
every task, count successes, and report the summary. Tasks are processed one
at a time here: the worker pool affects only completion interleaving, and
both the success counter and the failure list are updated under the
instance's single data lock, so the final counts and the sequence of failure
records per task are those of a sequential run. -/
def download_all_pricing (services regions : List String)
    (outcomes : String → String → Nat → AttemptOutcome)
    (max_retries : Nat) (ts : String) : Summary × DLState :=
  let combinations := regions.flatMap (fun r => services.map (fun s => (s, r)))
  let final := combinations.foldl (fun acc t =>
    let r := process_download t.1 t.2 (outcomes t.1 t.2) max_retries ts acc.2
    (acc.1 + (if r.1.1.1 then 1 else 0), r.1.2)) ((0 : Nat), ⟨[], 0⟩)
  (⟨combinations.length, final.1, final.2.failed_downloads.length⟩, final.2)

end AWSPriceDownloader

theorem download_success_iff (service region : String) (o : AttemptOutcome)
    (ts : String) (st : DLState) :
    (AWSPriceDownloader.download_pricing_data service region o ts st).1.1 =
      isSuccess o := by
  cases o <;> rfl

/-- If every attempt in the budget fails — for any reason, a malformed body
included — the loop performs them all and returns (False, 0). -/
theorem go_all_fail (service region : String)
    (outcomes : Nat → AttemptOutcome) (ts : String) :
    ∀ (remaining attempt : Nat) (st : DLState),
    (∀ i, attempt ≤ i → i < attempt + remaining →
      isSuccess (outcomes i) = false) →
    (AWSPriceDownloader.process_download_go service region outcomes ts
        remaining attempt st).1.1 = (false, 0) ∧
    (AWSPriceDownloader.process_download_go service region outcomes ts
        remaining attempt st).2 = attempt + remaining
  | 0, attempt, st, _ => ⟨rfl, rfl⟩
  | remaining + 1, attempt, st, hfail => by
      have hcur : isSuccess (outcomes attempt) = false :=
        hfail attempt le_rfl (by omega)
      have hr := download_success_iff service region (outcomes attempt) ts st
      unfold AWSPriceDownloader.process_download_go
      simp only [hr, hcur, Bool.false_eq_true, if_false]
      have IH := go_all_fail service region outcomes ts remaining
        (attempt + 1)
        (AWSPriceDownloader.download_pricing_data service region
          (outcomes attempt) ts st).2
        (fun i h1 h2 => hfail i (by omega) (by omega))
      exact ⟨IH.1, by rw [IH.2]; omega⟩

/-- The first successful attempt inside the budget stops the loop with a
success result, whatever the earlier failures were. -/
theorem go_first_success (service region : String)
    (outcomes : Nat → AttemptOutcome) (ts : String) :
    ∀ (remaining attempt j : Nat) (st : DLState),
    attempt ≤ j → j < attempt + remaining →
    (∀ i, attempt ≤ i → i < j → isSuccess (outcomes i) = false) →
    isSuccess (outcomes j) = true →
    (AWSPriceDownloader.process_download_go service region outcomes ts
        remaining attempt st).1.1.1 = true ∧
    (AWSPriceDownloader.process_download_go service region outcomes ts
        remaining attempt st).2 = j + 1
  | 0, attempt, j, st, h1, h2, _, _ => by omega
  | remaining + 1, attempt, j, st, h1, h2, hfail, hsucc => by
      have hr := download_success_iff service region (outcomes attempt) ts st
      by_cases hj : attempt = j
      · subst hj
        unfold AWSPriceDownloader.process_download_go
        simp [hr, hsucc]
      · have hcur : isSuccess (outcomes attempt) = false :=
          hfail attempt le_rfl (by omega)
        unfold AWSPriceDownloader.process_download_go
        simp only [hr, hcur, Bool.false_eq_true, if_false]
        exact go_first_success service region outcomes ts remaining
          (attempt + 1) j _ (by omega) (by omega)
          (fun i hi1 hi2 => hfail i (by omega) hi2) hsucc

/-- Attempts that record no failure — successes and malformed bodies — leave
the failure list untouched. -/
theorem go_no_record (service region : String)
    (outcomes : Nat → AttemptOutcome) (ts : String) :
    ∀ (remaining attempt : Nat) (st : DLState),
    (∀ i, attempt ≤ i → i < attempt + remaining →
      recordsFailure (outcomes i) = false) →
    (AWSPriceDownloader.process_download_go service region outcomes ts
        remaining attempt st).1.2.failed_downloads = st.failed_downloads
  | 0, _, _, _ => rfl
  | remaining + 1, attempt, st, hno => by
      have hcur : recordsFailure (outcomes attempt) = false :=
        hno attempt le_rfl (by omega)
      unfold AWSPriceDownloader.process_download_go
      cases ho : outcomes attempt with
      | success size =>
          simp [ho, AWSPriceDownloader.download_pricing_data]
      | transient err size => rw [ho] at hcur; simp [recordsFailure] at hcur
      | malformed err size =>
          simp only [ho, AWSPriceDownloader.download_pricing_data,
            Bool.false_eq_true, if_false]
          exact go_no_record service region outcomes ts remaining
            (attempt + 1) st (fun i h1 h2 => hno i (by omega) (by omega))
      | saveError err size => rw [ho] at hcur; simp [recordsFailure] at hcur

/-- Attempt outcomes for the C5 counterexample: the first response body is
not parseable as JSON, every later attempt succeeds. -/
def c5outcomes : Nat → AttemptOutcome
  | 0 => .malformed "Invalid JSON data" 7
  | _ => .success 5

/--
C5 counterexample: with an unparseable body on attempt 0 and a good response
on attempt 1, process_download performs a second attempt and returns success
— the malformed payload was retried, not surfaced immediately — and the run
leaves no FailureRecord at all (the json.JSONDecodeError arm only logs), so
neither the "never retried" nor the "terminal failure" half of the claim
holds on the code.
-/
theorem C5_retry_policy_counterexample :
    (AWSPriceDownloader.process_download "AmazonEC2" "ap-south-1" c5outcomes
        3 "t" ⟨[], 0⟩).2 = 2 ∧
    (AWSPriceDownloader.process_download "AmazonEC2" "ap-south-1" c5outcomes
        3 "t" ⟨[], 0⟩).1.1.1 = true ∧
    (AWSPriceDownloader.process_download "AmazonEC2" "ap-south-1" c5outcomes
        3 "t" ⟨[], 0⟩).1.2.failed_downloads = [] :=
  ⟨rfl, rfl, rfl⟩

/--
C5 amended: the outer retry loop retries on every unsuccessful attempt
regardless of its cause — an unparseable body is retried exactly like a
transient error. The loop stops at the first successful attempt inside the
budget, having made one attempt more than the failures before it; if all
max_retries attempts fail it returns (False, 0) after exactly max_retries
attempts; and attempts that fail with a malformed body contribute no
FailureRecord (only transient and save errors are recorded).
-/
theorem C5_retry_policy_amended (service region : String)
    (outcomes : Nat → AttemptOutcome) (max_retries : Nat) (ts : String)
    (st : DLState) :
    (∀ j, j < max_retries → isSuccess (outcomes j) = true →
      (∀ i, i < j → isSuccess (outcomes i) = false) →
      (AWSPriceDownloader.process_download service region outcomes
          max_retries ts st).1.1.1 = true ∧
      (AWSPriceDownloader.process_download service region outcomes
          max_retries ts st).2 = j + 1) ∧
    ((∀ i, i < max_retries → isSuccess (outcomes i) = false) →
      (AWSPriceDownloader.process_download service region outcomes
          max_retries ts st).1.1 = (false, 0) ∧
      (AWSPriceDownloader.process_download service region outcomes
          max_retries ts st).2 = max_retries) ∧
    ((∀ i, i < max_retries → recordsFailure (outcomes i) = false) →
      (AWSPriceDownloader.process_download service region outcomes
          max_retries ts st).1.2.failed_downloads = st.failed_downloads) := by
  refine ⟨?_, ?_, ?_⟩
  · intro j hj hsucc hfail
    exact go_first_success service region outcomes ts max_retries 0 j st
      (Nat.zero_le j) (by omega) (fun i _ hi => hfail i hi) hsucc
  · intro hfail
    have h := go_all_fail service region outcomes ts max_retries 0 st
      (fun i _ hi => hfail i (by omega))
    exact ⟨h.1, by have h2 := h.2; unfold AWSPriceDownloader.process_download; omega⟩
  · intro hno
    exact go_no_record service region outcomes ts max_retries 0 st
      (fun i _ hi => hno i (by omega))

theorem C5_retry_policy_amended_witness :
    (1 < 3 ∧ isSuccess (c5outcomes 1) = true) ∧
    (AWSPriceDownloader.process_download "AmazonEC2" "ap-south-1" c5outcomes
        3 "t" ⟨[], 0⟩).1.1.1 = true ∧
    (AWSPriceDownloader.process_download "AmazonEC2" "ap-south-1" c5outcomes
        3 "t" ⟨[], 0⟩).2 = 1 + 1 :=
  ⟨⟨by decide, rfl⟩,
    (C5_retry_policy_amended "AmazonEC2" "ap-south-1" c5outcomes 3 "t"
      ⟨[], 0⟩).1 1 (by decide) rfl (by decide)⟩

/-- The three catalogs of the C6 scenario. -/
def c6services : List String := ["A", "B", "C"]

/-- The two partitions of the C6 scenario. -/
def c6regions : List String := ["r1", "r2"]

/-- Attempt outcomes of the C6 scenario: the fetch for catalog B in
partition r2 raises a TransientError on every attempt; every other task
succeeds on its first attempt. -/
def c6outcomes (s r : String) : Nat → AttemptOutcome :=
  fun _ =>
    if s = "B" && r = "r2" then .transient "Connection timed out" 0
    else .success 100

/--
C6 counterexample: in the claimed 3 catalogs by 2 partitions scenario with
one always-transient task, the run does not report failed=1 and the
persisted failure list does not contain exactly one record: every failed
attempt appends its own FailureRecord, so the single exhausted task
contributes max_retries records.
-/
theorem C6_failure_aggregation_counterexample :
    (AWSPriceDownloader.download_all_pricing c6services c6regions c6outcomes
        3 "t").1.failedReported ≠ 1 := by
  decide

/--
C6 amended: in the 3 catalogs by 2 partitions scenario with one
always-transient task and max_retries 3, the summary reports attempted=6 and
succeeded=5 as claimed, but the failed-downloads count is 3 — one
FailureRecord per failed attempt of the exhausted task, all naming that
(catalog, partition) pair — and that list of 3 records is what
failed_downloads.json receives.
-/
theorem C6_failure_aggregation_amended :
    (AWSPriceDownloader.download_all_pricing c6services c6regions c6outcomes
        3 "t").1.attempted = 6 ∧
    (AWSPriceDownloader.download_all_pricing c6services c6regions c6outcomes
        3 "t").1.succeeded = 5 ∧
    (AWSPriceDownloader.download_all_pricing c6services c6regions c6outcomes
        3 "t").1.failedReported = 3 ∧
    (AWSPriceDownloader.download_all_pricing c6services c6regions c6outcomes
        3 "t").2.failed_downloads =
      [⟨"B", "r2", "Connection timed out", "t"⟩,
       ⟨"B", "r2", "Connection timed out", "t"⟩,
       ⟨"B", "r2", "Connection timed out", "t"⟩] :=
  ⟨rfl, rfl, rfl, rfl⟩

theorem C3_atomic_write_amended_witness :
    AtomicFor (pricingPath "aws_pricing_data" "ap-south-1" "AmazonEC2")
      (save_pricing_data_ops "aws_pricing_data" "ap-south-1" "AmazonEC2"
        (Json.obj [])) (Json.obj []) :=
  (C3_atomic_write_amended "aws_pricing_data" "ap-south-1" "AmazonEC2"
    "aws_pricing_data" "AmazonEC2" "ap-south-1" (Json.obj []) (Json.obj [])
    (Json.obj [])).1
